import Mathlib

/-!
Verification of the SuiviScolaire in-memory repository (`MemStorage`) and its
aggregation queries, shallowly embedded from the TypeScript source.

JavaScript `Map<number, V>` values are modelled as insertion-ordered
association lists `List (Nat × V)`: `set` replaces the value in place when the
key is present and appends at the end otherwise, `values()` iterates in
insertion order, and `delete` removes the entry with the key (keys are unique
by construction of `set`, so a filter realises it).
-/

namespace SuiviScolaire

/-! ### The JS `Map` model -/

def mapGet {V : Type} (m : List (Nat × V)) (k : Nat) : Option V :=
  (m.find? (fun p => p.1 == k)).map Prod.snd

def mapSet {V : Type} (m : List (Nat × V)) (k : Nat) (v : V) : List (Nat × V) :=
  match m with
  | [] => [(k, v)]
  | p :: rest => if p.1 == k then (k, v) :: rest else p :: mapSet rest k v

def mapDelete {V : Type} (m : List (Nat × V)) (k : Nat) : List (Nat × V) :=
  m.filter (fun p => p.1 != k)

def mapContains {V : Type} (m : List (Nat × V)) (k : Nat) : Bool :=
  (mapGet m k).isSome

def mapValues {V : Type} (m : List (Nat × V)) : List V :=
  m.map Prod.snd

/-- Models `map.get(k) || 0` as used by the absence-counting loop. -/
def mapGetD {V : Type} (m : List (Nat × V)) (k : Nat) (d : V) : V :=
  (mapGet m k).getD d

/-! ### Entity records (from `shared/schema.ts`)

Enum-typed text columns (`role`, `type`, `status`) are kept as `String`,
matching the `===` comparisons in the source. Nullable columns are `Option`.
`serial` identifiers and foreign keys are `Nat`; `timestamp` dates are
modelled as epoch milliseconds (`Int`). -/

structure User where
  id : Nat
  username : String
  password : String
  fullName : String
  email : String
  role : String
  departmentId : Option Nat
deriving DecidableEq, Repr

structure InsertUser where
  username : String
  password : String
  fullName : String
  email : String
  role : String
  departmentId : Option Nat := none
deriving DecidableEq, Repr

structure Department where
  id : Nat
  name : String
  description : Option String
deriving DecidableEq, Repr

structure Course where
  id : Nat
  name : String
  code : String
  description : Option String
  departmentId : Nat
  absenceThreshold : Option Int
deriving DecidableEq, Repr

structure Module where
  id : Nat
  name : String
  code : String
  description : Option String
  courseId : Nat
deriving DecidableEq, Repr

structure ModuleElement where
  id : Nat
  name : String
  code : String
  description : Option String
  moduleId : Nat
deriving DecidableEq, Repr

structure TeacherModuleElement where
  id : Nat
  teacherId : Nat
  moduleElementId : Nat
deriving DecidableEq, Repr

structure Student where
  id : Nat
  studentId : String
  firstName : String
  lastName : String
  email : String
  courseId : Nat
deriving DecidableEq, Repr

structure StudentGroup where
  id : Nat
  name : String
  type : String
  courseId : Nat
deriving DecidableEq, Repr

structure StudentGroupAssignment where
  id : Nat
  studentId : Nat
  groupId : Nat
deriving DecidableEq, Repr

structure InsertStudentGroupAssignment where
  studentId : Nat
  groupId : Nat
deriving DecidableEq, Repr

structure Session where
  id : Nat
  date : Int
  type : String
  moduleElementId : Nat
  teacherId : Nat
  groupId : Option Nat
  notes : Option String
deriving DecidableEq, Repr

structure Absence where
  id : Nat
  sessionId : Nat
  studentId : Nat
  status : String
  notes : Option String
deriving DecidableEq, Repr

structure InsertAbsence where
  sessionId : Nat
  studentId : Nat
  status : String
  notes : Option String := none
deriving DecidableEq, Repr

/-- Model of `Partial<InsertUser>`: every field optionally present; `{...existing, ...partial}`
keeps the existing value for the fields the partial payload omits. -/
structure PartialInsertUser where
  username : Option String := none
  password : Option String := none
  fullName : Option String := none
  email : Option String := none
  role : Option String := none
  departmentId : Option (Option Nat) := none
deriving DecidableEq, Repr

/-! ### `MemStorage` (from the storage source file, lines 96–176) -/

structure NextIds where
  users : Nat
  departments : Nat
  courses : Nat
  modules : Nat
  moduleElements : Nat
  teacherModuleElements : Nat
  students : Nat
  studentGroups : Nat
  studentGroupAssignments : Nat
  sessions : Nat
  absences : Nat
deriving DecidableEq, Repr

structure MemStorage where
  users : List (Nat × User)
  departments : List (Nat × Department)
  courses : List (Nat × Course)
  modules : List (Nat × Module)
  moduleElements : List (Nat × ModuleElement)
  teacherModuleElements : List (Nat × TeacherModuleElement)
  students : List (Nat × Student)
  studentGroups : List (Nat × StudentGroup)
  studentGroupAssignments : List (Nat × StudentGroupAssignment)
  sessions : List (Nat × Session)
  absences : List (Nat × Absence)
  nextIds : NextIds
deriving DecidableEq, Repr

/-- The state after the field initializers of the constructor (lines 124–148):
all maps empty, every counter at 1 — before the three seed users are created. -/
def MemStorage.empty : MemStorage :=
  { users := [], departments := [], courses := [], modules := [], moduleElements := [],
    teacherModuleElements := [], students := [], studentGroups := [],
    studentGroupAssignments := [], sessions := [], absences := [],
    nextIds := { users := 1, departments := 1, courses := 1, modules := 1,
                 moduleElements := 1, teacherModuleElements := 1, students := 1,
                 studentGroups := 1, studentGroupAssignments := 1, sessions := 1,
                 absences := 1 } }

/-! User operations (lines 179–209). -/

def MemStorage.getUser (s : MemStorage) (id : Nat) : Option User :=
  mapGet s.users id

def MemStorage.createUser (s : MemStorage) (u : InsertUser) : User × MemStorage :=
  let id := s.nextIds.users
  let newUser : User :=
    { username := u.username, password := u.password, fullName := u.fullName,
      email := u.email, role := u.role, departmentId := u.departmentId, id := id }
  (newUser,
   { s with users := mapSet s.users id newUser,
            nextIds := { s.nextIds with users := id + 1 } })

/-- Shallow merge `{ ...existingUser, ...user }`: fields present in the partial payload win,
absent fields keep the stored value; `id` is not part of `Partial<InsertUser>`. -/
def mergeUser (existing : User) (p : PartialInsertUser) : User :=
  { id := existing.id
    username := p.username.getD existing.username
    password := p.password.getD existing.password
    fullName := p.fullName.getD existing.fullName
    email := p.email.getD existing.email
    role := p.role.getD existing.role
    departmentId := p.departmentId.getD existing.departmentId }

def MemStorage.updateUser (s : MemStorage) (id : Nat) (p : PartialInsertUser) :
    Option User × MemStorage :=
  match mapGet s.users id with
  | none => (none, s)
  | some existing =>
      let updatedUser := mergeUser existing p
      (some updatedUser, { s with users := mapSet s.users id updatedUser })

def MemStorage.deleteUser (s : MemStorage) (id : Nat) : Bool × MemStorage :=
  (mapContains s.users id, { s with users := mapDelete s.users id })

def MemStorage.listUsers (s : MemStorage) : List User :=
  mapValues s.users

/-- The constructor body (lines 150–176): three users are seeded through
`createUser`, so the live store starts with user ids 1, 2, 3 assigned. -/
def mkMemStorage : MemStorage :=
  (((MemStorage.empty.createUser
      { username := "admin", password := "admin", fullName := "Administrator",
        email := "admin@example.com", role := "admin" }).2.createUser
      { username := "teacher", password := "teacher", fullName := "Teacher",
        email := "teacher@example.com", role := "teacher" }).2.createUser
      { username := "head_d", password := "head_d", fullName := "Department Head",
        email := "head_d@example.com", role := "departmentHead" }).2

/-! Course operations (lines 241–271, the ones the claims use). -/

def MemStorage.getCourse (s : MemStorage) (id : Nat) : Option Course :=
  mapGet s.courses id

def MemStorage.deleteCourse (s : MemStorage) (id : Nat) : Bool × MemStorage :=
  (mapContains s.courses id, { s with courses := mapDelete s.courses id })

def MemStorage.listCourses (s : MemStorage) : List Course :=
  mapValues s.courses

/-! Module / Student / StudentGroup list operations (lines 298, 387, 420). -/

def MemStorage.listModules (s : MemStorage) : List Module :=
  mapValues s.modules

def MemStorage.listStudents (s : MemStorage) : List Student :=
  mapValues s.students

def MemStorage.listStudentGroups (s : MemStorage) : List StudentGroup :=
  mapValues s.studentGroups

/-! Student group assignment operations (lines 429–457). -/

def MemStorage.assignStudentToGroup (s : MemStorage) (a : InsertStudentGroupAssignment) :
    StudentGroupAssignment × MemStorage :=
  let id := s.nextIds.studentGroupAssignments
  let newAssignment : StudentGroupAssignment :=
    { studentId := a.studentId, groupId := a.groupId, id := id }
  (newAssignment,
   { s with studentGroupAssignments := mapSet s.studentGroupAssignments id newAssignment,
            nextIds := { s.nextIds with studentGroupAssignments := id + 1 } })

def MemStorage.listStudentGroupAssignments (s : MemStorage) (groupId : Nat) :
    List StudentGroupAssignment :=
  (mapValues s.studentGroupAssignments).filter (fun a => a.groupId == groupId)

def MemStorage.listStudentsByGroup (s : MemStorage) (groupId : Nat) : List Student :=
  let assignments := s.listStudentGroupAssignments groupId
  let studentIds := assignments.map (fun a => a.studentId)
  (mapValues s.students).filter (fun student => studentIds.contains student.id)

/-! Absence operations (lines 497–540, the ones the claims use). -/

def MemStorage.getAbsence (s : MemStorage) (id : Nat) : Option Absence :=
  mapGet s.absences id

def MemStorage.createAbsence (s : MemStorage) (a : InsertAbsence) : Absence × MemStorage :=
  let id := s.nextIds.absences
  let newAbsence : Absence :=
    { sessionId := a.sessionId, studentId := a.studentId, status := a.status,
      notes := a.notes, id := id }
  (newAbsence,
   { s with absences := mapSet s.absences id newAbsence,
            nextIds := { s.nextIds with absences := id + 1 } })

def MemStorage.listAbsences (s : MemStorage) : List Absence :=
  mapValues s.absences

def MemStorage.batchCreateAbsences (s : MemStorage) :
    List InsertAbsence → List Absence × MemStorage
  | [] => ([], s)
  | a :: rest =>
      let created := s.createAbsence a
      let createdRest := created.2.batchCreateAbsences rest
      (created.1 :: createdRest.1, createdRest.2)

/-! ### C1: monotonic identifiers under interleaved creates and deletes -/

/-- An interleaving of create and delete operations on the users collection. -/
inductive UserOp where
  | create (u : InsertUser)
  | delete (id : Nat)
deriving DecidableEq, Repr

/-- Run a sequence of user operations; also return the identifiers handed out
by the create calls, in order. -/
def runUserOps (s : MemStorage) : List UserOp → MemStorage × List Nat
  | [] => (s, [])
  | UserOp.create u :: ops =>
      let res := s.createUser u
      let rest := runUserOps res.2 ops
      (rest.1, res.1.id :: rest.2)
  | UserOp.delete i :: ops => runUserOps (s.deleteUser i).2 ops

def c2Payload : PartialInsertUser := { email := some "admin2@example.com" }

def c2Admin : User :=
  { id := 1, username := "admin", password := "admin", fullName := "Administrator",
    email := "admin@example.com", role := "admin", departmentId := none }

def c8Store : MemStorage :=
  { MemStorage.empty with
      courses := [(1, { id := 1, name := "Info", code := "INF", description := none,
                        departmentId := 1, absenceThreshold := some 3 })],
      modules := [(1, { id := 1, name := "Algo", code := "M1", description := none,
                        courseId := 1 })],
      students := [(1, { id := 1, studentId := "S1", firstName := "A", lastName := "B",
                         email := "s1@example.com", courseId := 1 })],
      studentGroups := [(1, { id := 1, name := "G1", type := "TD", courseId := 1 })],
      nextIds := { MemStorage.empty.nextIds with courses := 2, modules := 2, students := 2, studentGroups := 2 } }

def c9Dup : InsertUser :=
  { username := "admin", password := "x", fullName := "Clone",
    email := "admin@example.com", role := "admin" }

def c6Store : MemStorage :=
  { MemStorage.empty with
      students :=
        [(1, { id := 1, studentId := "S1", firstName := "A", lastName := "A",
               email := "s1@example.com", courseId := 1 }),
         (2, { id := 2, studentId := "S2", firstName := "B", lastName := "B",
               email := "s2@example.com", courseId := 1 }),
         (3, { id := 3, studentId := "S3", firstName := "C", lastName := "C",
               email := "s3@example.com", courseId := 1 })],
      studentGroupAssignments :=
        [(1, { id := 1, studentId := 1, groupId := 7 }),
         (2, { id := 2, studentId := 3, groupId := 7 })],
      nextIds := { MemStorage.empty.nextIds with students := 4, studentGroupAssignments := 3 } }

/-! ### Aggregation queries

`GET /api/statistics/top-absentees` (server routes): count absences with
status `"absent"` per student in a `Map<number, number>`, resolve student
names, sort descending by count with `Array.prototype.sort` (a stable sort,
per the ECMAScript specification) and truncate to `limit` (default 5). -/

/-- Client-side per-student absent count (`AbsenceReports.tsx`, lines
145–149): Absence rows with matching `studentId` and status `"absent"`. -/
def getStudentAbsences (absences : List Absence) (studentId : Nat) : Nat :=
  (absences.filter (fun a => a.studentId == studentId && a.status == "absent")).length

/-- The route's counting loop over the `absencesByStudent` map. -/
def countAbsencesByStudentAux (m : List (Nat × Nat)) : List Absence → List (Nat × Nat)
  | [] => m
  | a :: rest =>
      if a.status == "absent" then
        countAbsencesByStudentAux (mapSet m a.studentId (mapGetD m a.studentId 0 + 1)) rest
      else
        countAbsencesByStudentAux m rest

def countAbsencesByStudent (absences : List Absence) : List (Nat × Nat) :=
  countAbsencesByStudentAux [] absences

structure TopAbsentee where
  studentId : Nat
  studentName : String
  absenceCount : Nat
deriving DecidableEq, Repr

/-- The route's `.map` step: resolve the student's display name, falling back
to `"Unknown"` for a dangling student id. -/
def toTopAbsentee (students : List Student) (p : Nat × Nat) : TopAbsentee :=
  match students.find? (fun st => st.id == p.1) with
  | some st => { studentId := p.1, studentName := st.firstName ++ " " ++ st.lastName,
                 absenceCount := p.2 }
  | none => { studentId := p.1, studentName := "Unknown", absenceCount := p.2 }

/-- Stable insertion: place `a` before the first element it may precede. -/
def stableInsert {α : Type} (le : α → α → Bool) (a : α) : List α → List α
  | [] => [a]
  | b :: l => if le a b then a :: b :: l else b :: stableInsert le a l

/-- The unique stable sort consistent with the comparator, which is what
`Array.prototype.sort` computes. -/
def stableSort {α : Type} (le : α → α → Bool) : List α → List α
  | [] => []
  | a :: l => stableInsert le a (stableSort le l)

/-- The whole `top-absentees` computation with an explicit `limit`; the
comparator `(a, b) => b.absenceCount - a.absenceCount` sorts descending by
count. -/
def topAbsentees (absences : List Absence) (students : List Student) (limit : Nat) :
    List TopAbsentee :=
  (stableSort (fun x y => y.absenceCount ≤ x.absenceCount)
    ((countAbsencesByStudent absences).map (toTopAbsentee students))).take limit

/-- The route handler's limit handling: `req.query.limit ? parseInt(...) : 5`. -/
def topAbsenteesRoute (limitParam : Option Nat) (absences : List Absence)
    (students : List Student) : List TopAbsentee :=
  topAbsentees absences students (limitParam.getD 5)

/-! ### Threshold-breach report (`AbsenceReports.tsx`, lines 536–543)

`course.absenceThreshold` is a nullable integer column, so the guard
`if (!course.absenceThreshold) return null` skips the course when the
threshold is `null` **or** `0` (JS falsiness), and `course.absenceThreshold || 3`
evaluates to 3 in the same two cases. -/

/-- JS truthiness of a nullable number. -/
def intTruthy : Option Int → Bool
  | none => false
  | some t => !(t == 0)

/-- Models `v || d` on a nullable number. -/
def jsOr (v : Option Int) (d : Int) : Int :=
  match v with
  | none => d
  | some t => if t == 0 then d else t

/-- The inner filter (lines 540–543): enrolled students whose absent-count
strictly exceeds `course.absenceThreshold || 3`. -/
def studentsExceedingThreshold (absences : List Absence) (students : List Student)
    (course : Course) : List Student :=
  (students.filter (fun st => st.courseId == course.id)).filter
    (fun st => (getStudentAbsences absences st.id : Int) > jsOr course.absenceThreshold 3)

/-- One course's card in the report: `none` when the guard
`if (!course.absenceThreshold) return null` fires, otherwise the list of
flagged students. -/
def thresholdCard (absences : List Absence) (students : List Student)
    (course : Course) : Option (List Student) :=
  if intTruthy course.absenceThreshold then
    some (studentsExceedingThreshold absences students course)
  else
    none

/-- The claim's concrete multiset: 3 absent rows for student 1, 5 for
student 2, 5 for student 3. -/
def c4Absences : List Absence :=
  [{ id := 1, sessionId := 1, studentId := 1, status := "absent", notes := none },
   { id := 2, sessionId := 1, studentId := 1, status := "absent", notes := none },
   { id := 3, sessionId := 1, studentId := 1, status := "absent", notes := none },
   { id := 4, sessionId := 1, studentId := 2, status := "absent", notes := none },
   { id := 5, sessionId := 1, studentId := 2, status := "absent", notes := none },
   { id := 6, sessionId := 1, studentId := 2, status := "absent", notes := none },
   { id := 7, sessionId := 1, studentId := 2, status := "absent", notes := none },
   { id := 8, sessionId := 1, studentId := 2, status := "absent", notes := none },
   { id := 9, sessionId := 1, studentId := 3, status := "absent", notes := none },
   { id := 10, sessionId := 1, studentId := 3, status := "absent", notes := none },
   { id := 11, sessionId := 1, studentId := 3, status := "absent", notes := none },
   { id := 12, sessionId := 1, studentId := 3, status := "absent", notes := none },
   { id := 13, sessionId := 1, studentId := 3, status := "absent", notes := none }]

/-! ### C5: threshold breach -/

def c5Course : Course :=
  { id := 1, name := "Info", code := "INF", description := none, departmentId := 1,
    absenceThreshold := some 0 }

def c5Student : Student :=
  { id := 1, studentId := "S1", firstName := "A", lastName := "B",
    email := "s1@example.com", courseId := 1 }

def c5Absences : List Absence :=
  [{ id := 1, sessionId := 1, studentId := 1, status := "absent", notes := none }]

def c5wCourse : Course :=
  { id := 1, name := "Info", code := "INF", description := none, departmentId := 1,
    absenceThreshold := some 3 }

def c5wStudentA : Student :=
  { id := 1, studentId := "S1", firstName := "A", lastName := "A",
    email := "sa@example.com", courseId := 1 }

def c5wStudentB : Student :=
  { id := 2, studentId := "S2", firstName := "B", lastName := "B",
    email := "sb@example.com", courseId := 1 }

/-- Four absent rows for student A, three for student B. -/
def c5wAbsences : List Absence :=
  [{ id := 1, sessionId := 1, studentId := 1, status := "absent", notes := none },
   { id := 2, sessionId := 1, studentId := 1, status := "absent", notes := none },
   { id := 3, sessionId := 1, studentId := 1, status := "absent", notes := none },
   { id := 4, sessionId := 1, studentId := 1, status := "absent", notes := none },
   { id := 5, sessionId := 1, studentId := 2, status := "absent", notes := none },
   { id := 6, sessionId := 1, studentId := 2, status := "absent", notes := none },
   { id := 7, sessionId := 1, studentId := 2, status := "absent", notes := none }]

/-! ### C7: batch absence creation -/

def absenceFields (a : Absence) : Nat × Nat × String × Option String :=
  (a.sessionId, a.studentId, a.status, a.notes)

def insertAbsenceFields (a : InsertAbsence) : Nat × Nat × String × Option String :=
  (a.sessionId, a.studentId, a.status, a.notes)

def c7Store : MemStorage :=
  (mkMemStorage.createAbsence { sessionId := 1, studentId := 1, status := "absent" }).2

def c7Inputs : List InsertAbsence :=
  [{ sessionId := 2, studentId := 1, status := "absent" },
   { sessionId := 2, studentId := 2, status := "present" },
   { sessionId := 2, studentId := 3, status := "justified", notes := some "ill" }]

/-! ## Theorems -/

theorem mapGet_nil {V : Type} (k : Nat) : mapGet ([] : List (Nat × V)) k = none := rfl

theorem mapGet_cons_self {V : Type} (p : Nat × V) (rest : List (Nat × V)) (k : Nat)
    (hp : p.1 = k) : mapGet (p :: rest) k = some p.2 := by
  simp [mapGet, List.find?_cons_of_pos, hp]

theorem mapGet_cons_ne {V : Type} (p : Nat × V) (rest : List (Nat × V)) (k : Nat)
    (hp : p.1 ≠ k) : mapGet (p :: rest) k = mapGet rest k := by
  simp only [mapGet]
  rw [List.find?_cons_of_neg]
  simpa using hp

theorem mapSet_cons_self {V : Type} (p : Nat × V) (rest : List (Nat × V)) (k : Nat) (v : V)
    (hp : p.1 = k) : mapSet (p :: rest) k v = (k, v) :: rest := by
  simp [mapSet, hp]

theorem mapSet_cons_ne {V : Type} (p : Nat × V) (rest : List (Nat × V)) (k : Nat) (v : V)
    (hp : p.1 ≠ k) : mapSet (p :: rest) k v = p :: mapSet rest k v := by
  simp [mapSet, hp]

theorem mapGet_set_self {V : Type} (m : List (Nat × V)) (k : Nat) (v : V) :
    mapGet (mapSet m k v) k = some v := by
  induction m with
  | nil => simp [mapGet, mapSet]
  | cons p rest ih =>
    by_cases h : p.1 = k
    · rw [mapSet_cons_self p rest k v h, mapGet_cons_self _ _ _ rfl]
    · rw [mapSet_cons_ne p rest k v h, mapGet_cons_ne p _ k h]
      exact ih

theorem mapGet_set_ne {V : Type} (m : List (Nat × V)) (k k' : Nat) (v : V)
    (h : k ≠ k') : mapGet (mapSet m k' v) k = mapGet m k := by
  induction m with
  | nil =>
    simp only [mapSet]
    rw [mapGet_cons_ne _ _ _ (by simpa using Ne.symm h)]
  | cons p rest ih =>
    by_cases hp : p.1 = k'
    · rw [mapSet_cons_self p rest k' v hp,
        mapGet_cons_ne _ _ _ (by simpa using Ne.symm h),
        mapGet_cons_ne p _ k (by rw [hp]; exact Ne.symm h)]
    · rw [mapSet_cons_ne p rest k' v hp]
      by_cases hk : p.1 = k
      · rw [mapGet_cons_self p _ k hk, mapGet_cons_self p _ k hk]
      · rw [mapGet_cons_ne p _ k hk, mapGet_cons_ne p _ k hk]
        exact ih

theorem mapSet_eq_append {V : Type} (m : List (Nat × V)) (k : Nat) (v : V)
    (h : k ∉ m.map Prod.fst) : mapSet m k v = m ++ [(k, v)] := by
  induction m with
  | nil => simp [mapSet]
  | cons p rest ih =>
    simp only [List.map_cons, List.mem_cons, not_or] at h
    simp [mapSet, beq_iff_eq, Ne.symm (Ne.intro h.1), ih h.2]

theorem keys_mapSet {V : Type} (m : List (Nat × V)) (k j : Nat) (v : V) :
    j ∈ (mapSet m k v).map Prod.fst ↔ j ∈ m.map Prod.fst ∨ j = k := by
  induction m with
  | nil => simp [mapSet]
  | cons p rest ih =>
    by_cases hp : p.1 = k
    · subst hp
      rw [mapSet_cons_self p rest p.1 v rfl]
      simp
      tauto
    · rw [mapSet_cons_ne p rest k v hp]
      simp only [List.map_cons, List.mem_cons]
      rw [ih]
      tauto

theorem keys_mapSet_nodup {V : Type} (m : List (Nat × V)) (k : Nat) (v : V)
    (h : (m.map Prod.fst).Nodup) : ((mapSet m k v).map Prod.fst).Nodup := by
  induction m with
  | nil => simp [mapSet]
  | cons p rest ih =>
    simp only [List.map_cons, List.nodup_cons] at h
    by_cases hp : p.1 = k
    · subst hp
      rw [mapSet_cons_self p rest p.1 v rfl]
      simpa [List.nodup_cons] using h
    · rw [mapSet_cons_ne p rest k v hp]
      simp only [List.map_cons, List.nodup_cons]
      refine ⟨fun hmem => ?_, ih h.2⟩
      rw [keys_mapSet] at hmem
      rcases hmem with hmem | hmem
      · exact h.1 hmem
      · exact hp (hmem ▸ rfl)

theorem mapGet_eq_none_iff {V : Type} (m : List (Nat × V)) (k : Nat) :
    mapGet m k = none ↔ k ∉ m.map Prod.fst := by
  induction m with
  | nil => simp [mapGet]
  | cons p rest ih =>
    by_cases hp : p.1 = k
    · rw [mapGet_cons_self p rest k hp]
      simp [← hp]
    · rw [mapGet_cons_ne p rest k hp, ih]
      simp only [List.map_cons, List.mem_cons, not_or]
      constructor
      · intro hnm
        exact ⟨fun hk => hp (hk ▸ rfl), hnm⟩
      · intro hnm
        exact hnm.2

theorem mapDelete_of_not_mem {V : Type} (m : List (Nat × V)) (k : Nat)
    (h : k ∉ m.map Prod.fst) : mapDelete m k = m := by
  rw [mapDelete, List.filter_eq_self]
  intro p hp
  simp only [bne_iff_ne, ne_eq, decide_eq_true_eq]
  intro hk
  exact h (List.mem_map.mpr ⟨p, hp, hk⟩)

theorem mem_mapSet_self {V : Type} (m : List (Nat × V)) (k : Nat) (v : V) :
    (k, v) ∈ mapSet m k v := by
  induction m with
  | nil => simp [mapSet]
  | cons p rest ih =>
    by_cases hp : p.1 = k
    · rw [mapSet_cons_self p rest k v hp]
      exact List.mem_cons_self _ _
    · rw [mapSet_cons_ne p rest k v hp]
      exact List.mem_cons_of_mem _ ih

theorem mem_mapSet_of_ne {V : Type} (m : List (Nat × V)) (k k' : Nat) (v v' : V)
    (hm : (k, v) ∈ m) (hne : k ≠ k') : (k, v) ∈ mapSet m k' v' := by
  induction m with
  | nil => simp at hm
  | cons p rest ih =>
    by_cases hp : p.1 = k'
    · rw [mapSet_cons_self p rest k' v' hp]
      rcases List.mem_cons.mp hm with hm | hm
      · exact absurd (by rw [← hm] at hp; exact hp) hne
      · exact List.mem_cons_of_mem _ hm
    · rw [mapSet_cons_ne p rest k' v' hp]
      rcases List.mem_cons.mp hm with hm | hm
      · exact hm ▸ List.mem_cons_self _ _
      · exact List.mem_cons_of_mem _ (ih hm)

theorem mapGet_delete_self {V : Type} (m : List (Nat × V)) (k : Nat) :
    mapGet (mapDelete m k) k = none := by
  rw [mapGet_eq_none_iff]
  intro hk
  rcases List.mem_map.mp hk with ⟨p, hp, hpk⟩
  have hmem := List.of_mem_filter hp
  simp only [bne_iff_ne, ne_eq, decide_eq_true_eq] at hmem
  exact hmem hpk

theorem mapGet_delete_ne {V : Type} (m : List (Nat × V)) (k k' : Nat)
    (h : k ≠ k') : mapGet (mapDelete m k') k = mapGet m k := by
  induction m with
  | nil => rfl
  | cons p rest ih =>
    by_cases hp : p.1 = k'
    · rw [mapDelete, List.filter_cons_of_neg (by simp [hp])]
      rw [mapGet_cons_ne p rest k (by rw [hp]; exact fun hk => h hk.symm)]
      exact ih
    · rw [mapDelete, List.filter_cons_of_pos (by simpa using hp)]
      by_cases hk : p.1 = k
      · rw [mapGet_cons_self p _ k hk, mapGet_cons_self p _ k hk]
      · rw [mapGet_cons_ne p _ k hk, mapGet_cons_ne p _ k hk]
        exact ih

theorem mapGetD_set_self {V : Type} (m : List (Nat × V)) (k : Nat) (v d : V) :
    mapGetD (mapSet m k v) k d = v := by
  simp [mapGetD, mapGet_set_self]

theorem mapGetD_set_ne {V : Type} (m : List (Nat × V)) (k k' : Nat) (v d : V)
    (h : k ≠ k') : mapGetD (mapSet m k' v) k d = mapGetD m k d := by
  simp [mapGetD, mapGet_set_ne m k k' v h]

theorem runUserOps_nextId_le (ops : List UserOp) (s : MemStorage) :
    s.nextIds.users ≤ ((runUserOps s ops).1).nextIds.users := by
  induction ops generalizing s with
  | nil => exact Nat.le_refl _
  | cons op ops ih =>
    cases op with
    | create u =>
      have h := ih (s.createUser u).2
      simp only [runUserOps]
      exact Nat.le_trans (Nat.le_succ _) h
    | delete i =>
      have h := ih (s.deleteUser i).2
      simpa only [runUserOps] using h

theorem runUserOps_ids_lb (ops : List UserOp) (s : MemStorage) :
    ∀ i ∈ (runUserOps s ops).2, s.nextIds.users ≤ i := by
  induction ops generalizing s with
  | nil => intro i hi; simp [runUserOps] at hi
  | cons op ops ih =>
    cases op with
    | create u =>
      intro i hi
      simp only [runUserOps, List.mem_cons] at hi
      rcases hi with hi | hi
      · exact hi ▸ Nat.le_refl _
      · exact Nat.le_trans (Nat.le_succ _) (ih (s.createUser u).2 i hi)
    | delete j =>
      intro i hi
      simp only [runUserOps] at hi
      exact ih (s.deleteUser j).2 i hi

theorem runUserOps_ids_pairwise (ops : List UserOp) (s : MemStorage) :
    List.Pairwise (· < ·) (runUserOps s ops).2 := by
  induction ops generalizing s with
  | nil => simp [runUserOps]
  | cons op ops ih =>
    cases op with
    | create u =>
      simp only [runUserOps, List.pairwise_cons]
      refine ⟨fun j hj => ?_, ih (s.createUser u).2⟩
      have h := runUserOps_ids_lb ops (s.createUser u).2 j hj
      exact Nat.lt_of_lt_of_le (Nat.lt_succ_self _) h
    | delete i =>
      simpa only [runUserOps] using ih (s.deleteUser i).2

/-- Claim C1: for the users collection: the counter starts at 1 in the freshly
initialized store; along any interleaving of creates and deletes starting from
a state whose stored keys are all below the counter, the identifiers returned
by the creates are strictly increasing (hence pairwise distinct), each of them
is strictly greater than every identifier already assigned in the collection —
so identifiers of deleted records are never reused — and the counter is never
decremented. -/
theorem users_create_ids_strictly_increasing (s : MemStorage) (ops : List UserOp)
    (hb : ∀ k ∈ s.users.map Prod.fst, k < s.nextIds.users) :
    MemStorage.empty.nextIds.users = 1 ∧
    List.Pairwise (· < ·) (runUserOps s ops).2 ∧
    (∀ i ∈ (runUserOps s ops).2, ∀ k ∈ s.users.map Prod.fst, k < i) ∧
    s.nextIds.users ≤ ((runUserOps s ops).1).nextIds.users := by
  refine ⟨rfl, runUserOps_ids_pairwise ops s, ?_, runUserOps_nextId_le ops s⟩
  intro i hi k hk
  exact Nat.lt_of_lt_of_le (hb k hk) (runUserOps_ids_lb ops s i hi)

/-- Witness for C1: the seeded store (user ids 1, 2, 3 assigned, counter at 4)
with a create, an interleaved delete, and another create. -/
theorem users_create_ids_strictly_increasing_witness :
    MemStorage.empty.nextIds.users = 1 ∧
    List.Pairwise (· < ·)
      (runUserOps mkMemStorage
        [UserOp.create { username := "u4", password := "p", fullName := "U Four",
                         email := "u4@example.com", role := "teacher" },
         UserOp.delete 2,
         UserOp.create { username := "u5", password := "p", fullName := "U Five",
                         email := "u5@example.com", role := "teacher" }]).2 ∧
    (∀ i ∈ (runUserOps mkMemStorage
        [UserOp.create { username := "u4", password := "p", fullName := "U Four",
                         email := "u4@example.com", role := "teacher" },
         UserOp.delete 2,
         UserOp.create { username := "u5", password := "p", fullName := "U Five",
                         email := "u5@example.com", role := "teacher" }]).2,
      ∀ k ∈ mkMemStorage.users.map Prod.fst, k < i) ∧
    mkMemStorage.nextIds.users ≤
      ((runUserOps mkMemStorage
        [UserOp.create { username := "u4", password := "p", fullName := "U Four",
                         email := "u4@example.com", role := "teacher" },
         UserOp.delete 2,
         UserOp.create { username := "u5", password := "p", fullName := "U Five",
                         email := "u5@example.com", role := "teacher" }]).1).nextIds.users :=
  users_create_ids_strictly_increasing mkMemStorage
    [UserOp.create { username := "u4", password := "p", fullName := "U Four",
                     email := "u4@example.com", role := "teacher" },
     UserOp.delete 2,
     UserOp.create { username := "u5", password := "p", fullName := "U Five",
                     email := "u5@example.com", role := "teacher" }]
    (by decide)

/-! ### C2: update shallow-merges and preserves untouched fields -/

/-- Claim C2: for an existing record, `updateUser id p` returns (and stores under
the same id) the shallow merge of the payload onto the stored record: the id is
unchanged and every field the payload does not carry keeps its pre-update
value. -/
theorem updateUser_preserves_untouched_fields (s : MemStorage) (id : Nat)
    (p : PartialInsertUser) (u : User) (h : s.getUser id = some u) :
    (s.updateUser id p).1 = some (mergeUser u p) ∧
    ((s.updateUser id p).2).getUser id = some (mergeUser u p) ∧
    (mergeUser u p).id = u.id ∧
    (p.username = none → (mergeUser u p).username = u.username) ∧
    (p.password = none → (mergeUser u p).password = u.password) ∧
    (p.fullName = none → (mergeUser u p).fullName = u.fullName) ∧
    (p.email = none → (mergeUser u p).email = u.email) ∧
    (p.role = none → (mergeUser u p).role = u.role) ∧
    (p.departmentId = none → (mergeUser u p).departmentId = u.departmentId) := by
  have h' : mapGet s.users id = some u := h
  refine ⟨?_, ?_, rfl, ?_, ?_, ?_, ?_, ?_, ?_⟩
  · simp [MemStorage.updateUser, h']
  · simp [MemStorage.updateUser, h', MemStorage.getUser, mapGet_set_self]
  · intro hn; simp [mergeUser, hn]
  · intro hn; simp [mergeUser, hn]
  · intro hn; simp [mergeUser, hn]
  · intro hn; simp [mergeUser, hn]
  · intro hn; simp [mergeUser, hn]
  · intro hn; simp [mergeUser, hn]

/-- Witness for C2: updating the seeded admin user's email leaves every other
field (and the id) untouched. -/
theorem updateUser_preserves_untouched_fields_witness :
    (mkMemStorage.updateUser 1 c2Payload).1 = some (mergeUser c2Admin c2Payload) ∧
    ((mkMemStorage.updateUser 1 c2Payload).2).getUser 1 = some (mergeUser c2Admin c2Payload) ∧
    (mergeUser c2Admin c2Payload).id = c2Admin.id ∧
    (c2Payload.username = none → (mergeUser c2Admin c2Payload).username = c2Admin.username) ∧
    (c2Payload.password = none → (mergeUser c2Admin c2Payload).password = c2Admin.password) ∧
    (c2Payload.fullName = none → (mergeUser c2Admin c2Payload).fullName = c2Admin.fullName) ∧
    (c2Payload.email = none → (mergeUser c2Admin c2Payload).email = c2Admin.email) ∧
    (c2Payload.role = none → (mergeUser c2Admin c2Payload).role = c2Admin.role) ∧
    (c2Payload.departmentId = none →
      (mergeUser c2Admin c2Payload).departmentId = c2Admin.departmentId) :=
  updateUser_preserves_untouched_fields mkMemStorage 1 c2Payload c2Admin (by decide)

/-! ### C3: get/update/delete on a missing id -/

/-- Claim C3: for an id not present in the users collection: `getUser` returns
`none`, `updateUser` returns `none` leaving the whole store unchanged,
`deleteUser` returns `false` leaving the whole store unchanged, and a second
delete of the same id also returns `false`. -/
theorem missing_id_not_found (s : MemStorage) (id : Nat) (p : PartialInsertUser)
    (h : id ∉ s.users.map Prod.fst) :
    s.getUser id = none ∧
    s.updateUser id p = (none, s) ∧
    s.deleteUser id = (false, s) ∧
    (s.deleteUser id).2.deleteUser id = (false, s) := by
  have hg : mapGet s.users id = none := (mapGet_eq_none_iff _ _).mpr h
  have hd : mapDelete s.users id = s.users := mapDelete_of_not_mem _ _ h
  have hdel : s.deleteUser id = (false, s) := by
    simp [MemStorage.deleteUser, mapContains, hg, hd]
  refine ⟨hg, ?_, hdel, ?_⟩
  · simp [MemStorage.updateUser, hg]
  · rw [hdel]
    exact hdel

/-- Witness for C3: id 99 is absent from the seeded store. -/
theorem missing_id_not_found_witness :
    mkMemStorage.getUser 99 = none ∧
    mkMemStorage.updateUser 99 c2Payload = (none, mkMemStorage) ∧
    mkMemStorage.deleteUser 99 = (false, mkMemStorage) ∧
    (mkMemStorage.deleteUser 99).2.deleteUser 99 = (false, mkMemStorage) :=
  missing_id_not_found mkMemStorage 99 c2Payload (by decide)

/-! ### C8: deleting a course does not cascade to children -/

/-- Claim C8: `deleteCourse id` removes only the course record itself: the
modules, students and student-group collections are untouched, their list
outputs are unchanged (so records whose `courseId` references the deleted
course remain listed, dangling), the deleted course is gone, and every other
course is still retrievable. -/
theorem deleteCourse_no_cascade (s : MemStorage) (cid : Nat) :
    ((s.deleteCourse cid).2).modules = s.modules ∧
    ((s.deleteCourse cid).2).students = s.students ∧
    ((s.deleteCourse cid).2).studentGroups = s.studentGroups ∧
    ((s.deleteCourse cid).2).listModules = s.listModules ∧
    ((s.deleteCourse cid).2).listStudents = s.listStudents ∧
    ((s.deleteCourse cid).2).listStudentGroups = s.listStudentGroups ∧
    ((s.deleteCourse cid).2).getCourse cid = none ∧
    (∀ k, k ≠ cid → ((s.deleteCourse cid).2).getCourse k = s.getCourse k) ∧
    (∀ m ∈ s.listModules, m.courseId = cid → m ∈ ((s.deleteCourse cid).2).listModules) ∧
    (∀ st ∈ s.listStudents, st.courseId = cid → st ∈ ((s.deleteCourse cid).2).listStudents) ∧
    (∀ g ∈ s.listStudentGroups, g.courseId = cid →
      g ∈ ((s.deleteCourse cid).2).listStudentGroups) := by
  refine ⟨rfl, rfl, rfl, rfl, rfl, rfl, ?_, ?_, ?_, ?_, ?_⟩
  · exact mapGet_delete_self s.courses cid
  · intro k hk
    exact mapGet_delete_ne s.courses k cid hk
  · intro m hm _; exact hm
  · intro st hst _; exact hst
  · intro g hg _; exact hg

/-- Witness for C8: deleting course 1 leaves its module, student and group
dangling but stored. -/
theorem deleteCourse_no_cascade_witness :
    ((c8Store.deleteCourse 1).2).modules = c8Store.modules ∧
    ((c8Store.deleteCourse 1).2).students = c8Store.students ∧
    ((c8Store.deleteCourse 1).2).studentGroups = c8Store.studentGroups ∧
    ((c8Store.deleteCourse 1).2).listModules = c8Store.listModules ∧
    ((c8Store.deleteCourse 1).2).listStudents = c8Store.listStudents ∧
    ((c8Store.deleteCourse 1).2).listStudentGroups = c8Store.listStudentGroups ∧
    ((c8Store.deleteCourse 1).2).getCourse 1 = none ∧
    (∀ k, k ≠ 1 → ((c8Store.deleteCourse 1).2).getCourse k = c8Store.getCourse k) ∧
    (∀ m ∈ c8Store.listModules, m.courseId = 1 → m ∈ ((c8Store.deleteCourse 1).2).listModules) ∧
    (∀ st ∈ c8Store.listStudents, st.courseId = 1 →
      st ∈ ((c8Store.deleteCourse 1).2).listStudents) ∧
    (∀ g ∈ c8Store.listStudentGroups, g.courseId = 1 →
      g ∈ ((c8Store.deleteCourse 1).2).listStudentGroups) :=
  deleteCourse_no_cascade c8Store 1

/-! ### C9: create performs no uniqueness validation -/

/-- Claim C9: two `createUser` calls with identical username (and any other
fields) both succeed: the two returned records carry the supplied username,
have distinct identifiers, and both coexist in the subsequent `listUsers`
output. -/
theorem createUser_no_uniqueness_validation (s : MemStorage) (u1 u2 : InsertUser)
    (_hdup : u1.username = u2.username) :
    (s.createUser u1).1.id ≠ ((s.createUser u1).2.createUser u2).1.id ∧
    (s.createUser u1).1.username = u1.username ∧
    ((s.createUser u1).2.createUser u2).1.username = u2.username ∧
    (s.createUser u1).1 ∈ ((s.createUser u1).2.createUser u2).2.listUsers ∧
    ((s.createUser u1).2.createUser u2).1 ∈ ((s.createUser u1).2.createUser u2).2.listUsers := by
  refine ⟨by simp [MemStorage.createUser], rfl, rfl, ?_, ?_⟩
  · have h1 : (s.nextIds.users, (s.createUser u1).1) ∈ (s.createUser u1).2.users :=
      mem_mapSet_self s.users s.nextIds.users (s.createUser u1).1
    have h2 : (s.nextIds.users, (s.createUser u1).1) ∈
        ((s.createUser u1).2.createUser u2).2.users :=
      mem_mapSet_of_ne _ _ _ _ _ h1 (by simp [MemStorage.createUser])
    exact List.mem_map.mpr ⟨_, h2, rfl⟩
  · have h2 : (s.nextIds.users + 1, ((s.createUser u1).2.createUser u2).1) ∈
        ((s.createUser u1).2.createUser u2).2.users :=
      mem_mapSet_self _ _ _
    exact List.mem_map.mpr ⟨_, h2, rfl⟩

/-- Witness for C9: creating the same username/email twice on the seeded store
yields two stored records. -/
theorem createUser_no_uniqueness_validation_witness :
    (mkMemStorage.createUser c9Dup).1.id ≠
      ((mkMemStorage.createUser c9Dup).2.createUser c9Dup).1.id ∧
    (mkMemStorage.createUser c9Dup).1.username = c9Dup.username ∧
    ((mkMemStorage.createUser c9Dup).2.createUser c9Dup).1.username = c9Dup.username ∧
    (mkMemStorage.createUser c9Dup).1 ∈
      ((mkMemStorage.createUser c9Dup).2.createUser c9Dup).2.listUsers ∧
    ((mkMemStorage.createUser c9Dup).2.createUser c9Dup).1 ∈
      ((mkMemStorage.createUser c9Dup).2.createUser c9Dup).2.listUsers :=
  createUser_no_uniqueness_validation mkMemStorage c9Dup c9Dup rfl

/-! ### C6: studentsInGroup join correctness -/

theorem mem_listStudentsByGroup_iff (s : MemStorage) (g : Nat) (st : Student) :
    st ∈ s.listStudentsByGroup g ↔
      st ∈ s.listStudents ∧ ∃ a ∈ mapValues s.studentGroupAssignments,
        a.groupId = g ∧ a.studentId = st.id := by
  simp only [MemStorage.listStudentsByGroup, MemStorage.listStudentGroupAssignments,
    MemStorage.listStudents, List.mem_filter]
  constructor
  · rintro ⟨hmem, hc⟩
    refine ⟨hmem, ?_⟩
    rw [List.elem_iff] at hc
    rcases List.mem_map.mp hc with ⟨a, ha, hid⟩
    have := List.mem_filter.mp ha
    exact ⟨a, this.1, by simpa using this.2, hid⟩
  · rintro ⟨hmem, a, ha, hg, hid⟩
    refine ⟨hmem, ?_⟩
    rw [List.elem_iff]
    exact List.mem_map.mpr ⟨a, List.mem_filter.mpr ⟨ha, by simpa using hg⟩, hid⟩

/-- Claim C6: `listStudentsByGroup g` returns exactly the student records whose
id is the `studentId` of some assignment row with group id `g` — as a sublist
of `listStudents`, i.e. in student-list order, not assignment order — and a
newly added assignment is reflected in the next call. -/
theorem listStudentsByGroup_join_correct (s : MemStorage) (g : Nat) :
    (s.listStudentsByGroup g).Sublist s.listStudents ∧
    (∀ st, st ∈ s.listStudentsByGroup g ↔
      st ∈ s.listStudents ∧ ∃ a ∈ mapValues s.studentGroupAssignments,
        a.groupId = g ∧ a.studentId = st.id) ∧
    (∀ a : InsertStudentGroupAssignment, a.groupId = g →
      ∀ st ∈ s.listStudents, st.id = a.studentId →
        st ∈ (s.assignStudentToGroup a).2.listStudentsByGroup g) := by
  refine ⟨List.filter_sublist _, fun st => mem_listStudentsByGroup_iff s g st, ?_⟩
  intro a hg st hst hid
  rw [mem_listStudentsByGroup_iff]
  refine ⟨hst, (s.assignStudentToGroup a).1, ?_, hg, hid.symm⟩
  exact List.mem_map.mpr
    ⟨(s.nextIds.studentGroupAssignments, (s.assignStudentToGroup a).1),
     mem_mapSet_self _ _ _, rfl⟩

/-- Witness for C6 at a concrete store: group 7 has assignments for students
1 and 3. -/
theorem listStudentsByGroup_join_correct_witness :
    (c6Store.listStudentsByGroup 7).Sublist c6Store.listStudents ∧
    (∀ st, st ∈ c6Store.listStudentsByGroup 7 ↔
      st ∈ c6Store.listStudents ∧ ∃ a ∈ mapValues c6Store.studentGroupAssignments,
        a.groupId = 7 ∧ a.studentId = st.id) ∧
    (∀ a : InsertStudentGroupAssignment, a.groupId = 7 →
      ∀ st ∈ c6Store.listStudents, st.id = a.studentId →
        st ∈ (c6Store.assignStudentToGroup a).2.listStudentsByGroup 7) :=
  listStudentsByGroup_join_correct c6Store 7

/-! ### C10: duplicate assignment rows do not duplicate students -/

theorem listStudentsByGroup_ids_nodup (s : MemStorage) (g : Nat)
    (hnd : (s.listStudents.map Student.id).Nodup) :
    ((s.listStudentsByGroup g).map Student.id).Nodup := by
  refine hnd.sublist ?_
  exact List.Sublist.map Student.id (List.filter_sublist _)

/-- Claim C10: `assignStudentToGroup` accepts duplicate `(studentId, groupId)`
pairs — assigning the same pair twice leaves (at least) two matching rows in
the assignment table — yet `listStudentsByGroup` still returns each student
record at most once, because it filters the student collection by membership
of its id in the assignment-derived id set. -/
theorem listStudentsByGroup_dedupes_assignments (s : MemStorage) (g : Nat)
    (hnd : (s.listStudents.map Student.id).Nodup)
    (hb : ∀ k ∈ s.studentGroupAssignments.map Prod.fst,
      k < s.nextIds.studentGroupAssignments) :
    ((s.listStudentsByGroup g).map Student.id).Nodup ∧
    (∀ a : InsertStudentGroupAssignment,
      ((((s.assignStudentToGroup a).2.assignStudentToGroup a).2.listStudentsByGroup g).map
        Student.id).Nodup) ∧
    (∀ a : InsertStudentGroupAssignment,
      2 ≤ ((mapValues (((s.assignStudentToGroup a).2.assignStudentToGroup a).2.studentGroupAssignments)).filter
            (fun r => r.studentId == a.studentId && r.groupId == a.groupId)).length) := by
  refine ⟨listStudentsByGroup_ids_nodup s g hnd, ?_, ?_⟩
  · intro a
    exact listStudentsByGroup_ids_nodup _ g hnd
  · intro a
    have hn1 : s.nextIds.studentGroupAssignments ∉ s.studentGroupAssignments.map Prod.fst :=
      fun hmem => Nat.lt_irrefl _ (hb _ hmem)
    have e1 : (s.assignStudentToGroup a).2.studentGroupAssignments =
        s.studentGroupAssignments ++
          [(s.nextIds.studentGroupAssignments, (s.assignStudentToGroup a).1)] :=
      mapSet_eq_append _ _ _ hn1
    have hn2 : s.nextIds.studentGroupAssignments + 1 ∉
        ((s.assignStudentToGroup a).2.studentGroupAssignments).map Prod.fst := by
      rw [e1]
      simp only [List.map_append, List.mem_append, List.map_cons, List.map_nil,
        List.mem_singleton, not_or]
      exact ⟨fun hmem => Nat.lt_irrefl _ (Nat.lt_trans (Nat.lt_succ_self _) (hb _ hmem)),
        by simp⟩
    have e2 : ((s.assignStudentToGroup a).2.assignStudentToGroup a).2.studentGroupAssignments =
        (s.assignStudentToGroup a).2.studentGroupAssignments ++
          [(s.nextIds.studentGroupAssignments + 1,
            ((s.assignStudentToGroup a).2.assignStudentToGroup a).1)] :=
      mapSet_eq_append _ _ _ hn2
    rw [e2, e1]
    simp only [mapValues, List.map_append, List.filter_append, List.length_append]
    have h1 : (List.filter (fun r => r.studentId == a.studentId && r.groupId == a.groupId)
        (List.map Prod.snd
          [(s.nextIds.studentGroupAssignments, (s.assignStudentToGroup a).1)])).length = 1 := by
      simp [MemStorage.assignStudentToGroup]
    have h2 : (List.filter (fun r => r.studentId == a.studentId && r.groupId == a.groupId)
        (List.map Prod.snd
          [(s.nextIds.studentGroupAssignments + 1,
            ((s.assignStudentToGroup a).2.assignStudentToGroup a).1)])).length = 1 := by
      simp [MemStorage.assignStudentToGroup]
    omega

/-- Witness for C10: assigning student 1 to group 7 twice more on the concrete
store still lists each student once. -/
theorem listStudentsByGroup_dedupes_assignments_witness :
    ((c6Store.listStudentsByGroup 7).map Student.id).Nodup ∧
    (∀ a : InsertStudentGroupAssignment,
      ((((c6Store.assignStudentToGroup a).2.assignStudentToGroup a).2.listStudentsByGroup 7).map
        Student.id).Nodup) ∧
    (∀ a : InsertStudentGroupAssignment,
      2 ≤ ((mapValues (((c6Store.assignStudentToGroup a).2.assignStudentToGroup a).2.studentGroupAssignments)).filter
            (fun r => r.studentId == a.studentId && r.groupId == a.groupId)).length) :=
  listStudentsByGroup_dedupes_assignments c6Store 7 (by decide) (by decide)

/-! ### C4: top-absentees -/

theorem getStudentAbsences_cons (a : Absence) (rest : List Absence) (k : Nat) :
    getStudentAbsences (a :: rest) k =
      (if a.studentId = k ∧ a.status = "absent" then 1 else 0) + getStudentAbsences rest k := by
  by_cases h : a.studentId = k ∧ a.status = "absent"
  · simp [getStudentAbsences, List.filter_cons, h.1, h.2, Nat.add_comm]
  · rw [if_neg h]
    rcases Decidable.not_and_iff_or_not.mp h with h1 | h1 <;>
      simp [getStudentAbsences, List.filter_cons, h1]

theorem countAux_getD (l : List Absence) (m : List (Nat × Nat)) (k : Nat) :
    mapGetD (countAbsencesByStudentAux m l) k 0 = mapGetD m k 0 + getStudentAbsences l k := by
  induction l generalizing m with
  | nil => simp [countAbsencesByStudentAux, getStudentAbsences]
  | cons a rest ih =>
    rw [getStudentAbsences_cons]
    by_cases hs : a.status = "absent"
    · rw [countAbsencesByStudentAux, if_pos (by simpa using hs), ih]
      by_cases hk : a.studentId = k
      · rw [hk, mapGetD_set_self, if_pos ⟨rfl, hs⟩]
        omega
      · rw [mapGetD_set_ne _ _ _ _ _ (fun he => hk he.symm),
          if_neg (fun hc => hk hc.1)]
        omega
    · rw [countAbsencesByStudentAux, if_neg (by simpa using hs), ih,
        if_neg (fun hc => hs hc.2)]
      omega

theorem countAux_mem_keys (l : List Absence) (m : List (Nat × Nat)) (k : Nat) :
    k ∈ (countAbsencesByStudentAux m l).map Prod.fst ↔
      k ∈ m.map Prod.fst ∨ getStudentAbsences l k ≠ 0 := by
  induction l generalizing m with
  | nil => simp [countAbsencesByStudentAux, getStudentAbsences]
  | cons a rest ih =>
    rw [getStudentAbsences_cons]
    by_cases hs : a.status = "absent"
    · rw [countAbsencesByStudentAux, if_pos (by simpa using hs), ih, keys_mapSet]
      by_cases hk : a.studentId = k
      · rw [if_pos ⟨hk, hs⟩]
        constructor
        · intro _; right; omega
        · intro _; left; right; exact hk.symm
      · rw [if_neg (fun hc => hk hc.1)]
        constructor
        · rintro ((h | h) | h)
          · exact Or.inl h
          · exact absurd h.symm hk
          · right; omega
        · rintro (h | h)
          · exact Or.inl (Or.inl h)
          · right; omega
    · rw [countAbsencesByStudentAux, if_neg (by simpa using hs), ih,
        if_neg (fun hc => hs hc.2)]
      constructor
      · rintro (h | h)
        · exact Or.inl h
        · right; omega
      · rintro (h | h)
        · exact Or.inl h
        · right; omega

theorem countAux_keys_nodup (l : List Absence) (m : List (Nat × Nat))
    (h : (m.map Prod.fst).Nodup) :
    ((countAbsencesByStudentAux m l).map Prod.fst).Nodup := by
  induction l generalizing m with
  | nil => exact h
  | cons a rest ih =>
    by_cases hs : a.status = "absent"
    · rw [countAbsencesByStudentAux, if_pos (by simpa using hs)]
      exact ih _ (keys_mapSet_nodup _ _ _ h)
    · rw [countAbsencesByStudentAux, if_neg (by simpa using hs)]
      exact ih _ h

theorem list_length_three {α : Type} (l : List α) (h : l.length = 3) :
    ∃ a b c, l = [a, b, c] := by
  rcases l with _ | ⟨a, _ | ⟨b, _ | ⟨c, _ | ⟨d, t⟩⟩⟩⟩ <;> simp_all

theorem stableInsert_map {α β : Type} (f : α → β) (leA : α → α → Bool)
    (leB : β → β → Bool) (hle : ∀ a b, leB (f a) (f b) = leA a b) (a : α)
    (l : List α) :
    stableInsert leB (f a) (l.map f) = (stableInsert leA a l).map f := by
  induction l with
  | nil => rfl
  | cons b t ih =>
    simp only [List.map_cons, stableInsert, hle a b]
    cases h : leA a b <;> simp [h, ih]

theorem stableSort_map {α β : Type} (f : α → β) (leA : α → α → Bool)
    (leB : β → β → Bool) (hle : ∀ a b, leB (f a) (f b) = leA a b) (l : List α) :
    stableSort leB (l.map f) = (stableSort leA l).map f := by
  induction l with
  | nil => rfl
  | cons a t ih =>
    simp only [List.map_cons, stableSort, ih]
    exact stableInsert_map f leA leB hle a _

theorem toTopAbsentee_studentId (students : List Student) (p : Nat × Nat) :
    (toTopAbsentee students p).studentId = p.1 := by
  rcases hfind : students.find? (fun st => st.id == p.1) with _ | st <;>
    simp [toTopAbsentee, hfind]

theorem toTopAbsentee_absenceCount (students : List Student) (p : Nat × Nat) :
    (toTopAbsentee students p).absenceCount = p.2 := by
  rcases hfind : students.find? (fun st => st.id == p.1) with _ | st <;>
    simp [toTopAbsentee, hfind]

theorem topAbsentees_proj (absences : List Absence) (students : List Student)
    (limit : Nat) :
    (topAbsentees absences students limit).map (fun t => (t.studentId, t.absenceCount)) =
      (stableSort (fun p q : Nat × Nat => q.2 ≤ p.2) (countAbsencesByStudent absences)).take
        limit := by
  unfold topAbsentees
  rw [List.map_take]
  rw [stableSort_map (toTopAbsentee students)
    (fun p q : Nat × Nat => q.2 ≤ p.2)
    (fun x y : TopAbsentee => y.absenceCount ≤ x.absenceCount)
    (fun a b => by simp [toTopAbsentee_absenceCount])]
  rw [List.map_map]
  have hid : ((fun t : TopAbsentee => (t.studentId, t.absenceCount)) ∘
      toTopAbsentee students) = id := by
    funext p
    simp [Function.comp, toTopAbsentee_studentId, toTopAbsentee_absenceCount]
  rw [hid, List.map_id]

theorem countAbsences_three_keys {k1 k2 k3 : Nat} (absences : List Absence)
    (p1 p2 p3 : Nat × Nat)
    (hgc : countAbsencesByStudent absences = [p1, p2, p3])
    (h1 : p1.1 = k1) (h2 : p2.1 = k2) (h3 : p3.1 = k3)
    (hd12 : k1 ≠ k2) (hd13 : k1 ≠ k3) (hd23 : k2 ≠ k3) :
    countAbsencesByStudent absences =
      [(k1, getStudentAbsences absences k1), (k2, getStudentAbsences absences k2),
       (k3, getStudentAbsences absences k3)] := by
  have hcnt : ∀ k, mapGetD (countAbsencesByStudent absences) k 0 =
      getStudentAbsences absences k := by
    intro k
    have h := countAux_getD absences [] k
    simpa [countAbsencesByStudent, mapGetD, mapGet] using h
  have e1 : p1.2 = getStudentAbsences absences k1 := by
    have h := hcnt k1
    rw [hgc, mapGetD, mapGet_cons_self _ _ _ h1] at h
    simpa using h
  have e2 : p2.2 = getStudentAbsences absences k2 := by
    have h := hcnt k2
    rw [hgc, mapGetD, mapGet_cons_ne _ _ _ (by rw [h1]; exact hd12),
      mapGet_cons_self _ _ _ h2] at h
    simpa using h
  have e3 : p3.2 = getStudentAbsences absences k3 := by
    have h := hcnt k3
    rw [hgc, mapGetD, mapGet_cons_ne _ _ _ (by rw [h1]; exact hd13),
      mapGet_cons_ne _ _ _ (by rw [h2]; exact hd23),
      mapGet_cons_self _ _ _ h3] at h
    simpa using h
  rw [hgc, ← e1, ← e2, ← e3, ← h1, ← h2, ← h3]

/-- Claim C4: top-absentees counts only absent-status rows, groups them by
student, sorts descending by count and truncates to the limit: whenever the
absent rows form the multiset (student 1)×3, (student 2)×5, (student 3)×5 —
in any order, and with rows of other statuses unrestricted — the limit-2
result is exactly the two entries for students 2 and 3, each with count 5,
student 1 never appearing; and omitting the limit parameter means limit 5. -/
theorem topAbsentees_scenario (absences : List Absence) (students : List Student)
    (hids : ∀ a ∈ absences, a.status = "absent" →
      a.studentId = 1 ∨ a.studentId = 2 ∨ a.studentId = 3)
    (hc1 : getStudentAbsences absences 1 = 3)
    (hc2 : getStudentAbsences absences 2 = 5)
    (hc3 : getStudentAbsences absences 3 = 5) :
    ((topAbsentees absences students 2).map (fun t => (t.studentId, t.absenceCount)) =
        [(2, 5), (3, 5)] ∨
      (topAbsentees absences students 2).map (fun t => (t.studentId, t.absenceCount)) =
        [(3, 5), (2, 5)]) ∧
    (∀ t ∈ topAbsentees absences students 2, t.studentId ≠ 1) ∧
    (∀ l : List Absence, ∀ p : List Student,
      topAbsenteesRoute none l p = topAbsentees l p 5) := by
  have hnd : ((countAbsencesByStudent absences).map Prod.fst).Nodup :=
    countAux_keys_nodup absences [] (by simp)
  have hmemk : ∀ k, k ∈ (countAbsencesByStudent absences).map Prod.fst ↔
      getStudentAbsences absences k ≠ 0 := by
    intro k
    have h := countAux_mem_keys absences [] k
    simpa [countAbsencesByStudent] using h
  have hsub : ∀ k ∈ (countAbsencesByStudent absences).map Prod.fst,
      k = 1 ∨ k = 2 ∨ k = 3 := by
    intro k hk
    have hcnt := (hmemk k).mp hk
    have hpos :
        0 < (absences.filter (fun a => a.studentId == k && a.status == "absent")).length :=
      Nat.pos_of_ne_zero hcnt
    rcases List.exists_mem_of_length_pos hpos with ⟨a, ha⟩
    have hmf := List.mem_filter.mp ha
    have hp := hmf.2
    simp only [Bool.and_eq_true, beq_iff_eq] at hp
    have hmem := hids a hmf.1 hp.2
    rw [hp.1] at hmem
    exact hmem
  have hperm : ((countAbsencesByStudent absences).map Prod.fst).Perm [1, 2, 3] := by
    rw [List.perm_ext_iff_of_nodup hnd (by decide)]
    intro a
    constructor
    · intro ha
      simpa using hsub a ha
    · intro ha
      have ha' : a = 1 ∨ a = 2 ∨ a = 3 := by simpa using ha
      rcases ha' with h | h | h <;> subst h <;> exact (hmemk _).mpr (by omega)
  have hlen : (countAbsencesByStudent absences).length = 3 := by
    have h := hperm.length_eq
    simpa using h
  obtain ⟨p1, p2, p3, hgc⟩ := list_length_three _ hlen
  have hkeys : (countAbsencesByStudent absences).map Prod.fst = [p1.1, p2.1, p3.1] := by
    rw [hgc]; rfl
  rw [hkeys] at hnd
  have hne12 : p1.1 ≠ p2.1 := by
    simp only [List.nodup_cons, List.mem_cons, List.mem_singleton, not_or] at hnd
    exact hnd.1.1
  have hne13 : p1.1 ≠ p3.1 := by
    simp only [List.nodup_cons, List.mem_cons, List.mem_singleton, not_or] at hnd
    exact hnd.1.2.1
  have hne23 : p2.1 ≠ p3.1 := by
    simp only [List.nodup_cons, List.mem_cons, List.mem_singleton, not_or] at hnd
    exact hnd.2.1.1
  have m1 : p1.1 = 1 ∨ p1.1 = 2 ∨ p1.1 = 3 := hsub p1.1 (by rw [hkeys]; simp)
  have m2 : p2.1 = 1 ∨ p2.1 = 2 ∨ p2.1 = 3 := hsub p2.1 (by rw [hkeys]; simp)
  have m3 : p3.1 = 1 ∨ p3.1 = 2 ∨ p3.1 = 3 := hsub p3.1 (by rw [hkeys]; simp)
  have hmain : (topAbsentees absences students 2).map
        (fun t => (t.studentId, t.absenceCount)) = [(2, 5), (3, 5)] ∨
      (topAbsentees absences students 2).map
        (fun t => (t.studentId, t.absenceCount)) = [(3, 5), (2, 5)] := by
    rw [topAbsentees_proj]
    rcases m1 with h1' | h1' | h1' <;> rcases m2 with h2' | h2' | h2' <;>
      rcases m3 with h3' | h3' | h3' <;>
      first
        | omega
        | (rw [countAbsences_three_keys absences p1 p2 p3 hgc h1' h2' h3'
              (by decide) (by decide) (by decide), hc1, hc2, hc3]
           decide)
  refine ⟨hmain, ?_, fun l p => rfl⟩
  intro t ht
  have hmem : (t.studentId, t.absenceCount) ∈
      (topAbsentees absences students 2).map (fun t => (t.studentId, t.absenceCount)) :=
    List.mem_map.mpr ⟨t, ht, rfl⟩
  rcases hmain with h | h <;> rw [h] at hmem <;>
    simp only [List.mem_cons, List.mem_singleton, Prod.mk.injEq,
      List.not_mem_nil, or_false] at hmem <;>
    rcases hmem with ⟨h', _⟩ | ⟨h', _⟩ <;> omega

/-- Witness for C4: the scenario instantiated at the concrete multiset. -/
theorem topAbsentees_scenario_witness :
    ((topAbsentees c4Absences [] 2).map (fun t => (t.studentId, t.absenceCount)) =
        [(2, 5), (3, 5)] ∨
      (topAbsentees c4Absences [] 2).map (fun t => (t.studentId, t.absenceCount)) =
        [(3, 5), (2, 5)]) ∧
    (∀ t ∈ topAbsentees c4Absences [] 2, t.studentId ≠ 1) ∧
    (∀ l : List Absence, ∀ p : List Student,
      topAbsenteesRoute none l p = topAbsentees l p 5) :=
  topAbsentees_scenario c4Absences [] (by decide) (by decide) (by decide) (by decide)

/-- Counterexample to claim C5 as stated: a course *with* an `absenceThreshold`
(value 0) and an enrolled student whose absent-count (1) strictly exceeds it —
yet the report's guard `if (!course.absenceThreshold) return null` treats the
0 threshold as falsy and renders no card, so the student is not flagged. -/
theorem thresholdCard_zero_threshold_counterexample :
    c5Course.absenceThreshold = some 0 ∧
    c5Student.courseId = c5Course.id ∧
    (getStudentAbsences c5Absences c5Student.id : Int) > 0 ∧
    thresholdCard c5Absences [c5Student] c5Course = none :=
  ⟨rfl, rfl, by decide, rfl⟩

/-- Claim C5, amended: for every course whose `absenceThreshold` is set and
nonzero, the report renders the course's card, and an enrolled student is
flagged on it if and only if the student's count of absent-status rows is
strictly greater than the threshold (equality does not flag). -/
theorem thresholdCard_flags_iff (absences : List Absence) (students : List Student)
    (course : Course) (t : Int) (st : Student)
    (ht : course.absenceThreshold = some t) (h0 : t ≠ 0)
    (hst : st ∈ students) (henr : st.courseId = course.id) :
    thresholdCard absences students course =
      some (studentsExceedingThreshold absences students course) ∧
    (st ∈ studentsExceedingThreshold absences students course ↔
      (getStudentAbsences absences st.id : Int) > t) := by
  have htr : intTruthy course.absenceThreshold = true := by
    rw [ht]; simp [intTruthy, h0]
  have hjs : jsOr course.absenceThreshold 3 = t := by
    rw [ht]; simp [jsOr, h0]
  refine ⟨by simp [thresholdCard, htr], ?_⟩
  rw [studentsExceedingThreshold]
  constructor
  · intro hmem
    have h := (List.mem_filter.mp hmem).2
    simpa [hjs] using h
  · intro hgt
    exact List.mem_filter.mpr
      ⟨List.mem_filter.mpr ⟨hst, by simp [henr]⟩, by simpa [hjs] using hgt⟩

/-- Witness for the amended C5: threshold 3, student A with 4 absent rows. -/
theorem thresholdCard_flags_iff_witness :
    thresholdCard c5wAbsences [c5wStudentA, c5wStudentB] c5wCourse =
      some (studentsExceedingThreshold c5wAbsences [c5wStudentA, c5wStudentB] c5wCourse) ∧
    (c5wStudentA ∈ studentsExceedingThreshold c5wAbsences [c5wStudentA, c5wStudentB] c5wCourse ↔
      (getStudentAbsences c5wAbsences c5wStudentA.id : Int) > 3) :=
  thresholdCard_flags_iff c5wAbsences [c5wStudentA, c5wStudentB] c5wCourse 3 c5wStudentA
    rfl (by decide) (by decide) rfl

theorem batchCreate_nextId_le (inputs : List InsertAbsence) (s : MemStorage) :
    s.nextIds.absences ≤ ((s.batchCreateAbsences inputs).2).nextIds.absences := by
  induction inputs generalizing s with
  | nil => exact Nat.le_refl _
  | cons a rest ih =>
    have h := ih (s.createAbsence a).2
    simp only [MemStorage.batchCreateAbsences]
    exact Nat.le_trans (Nat.le_succ _) h

theorem batchCreate_ids_lb (inputs : List InsertAbsence) (s : MemStorage) :
    ∀ r ∈ (s.batchCreateAbsences inputs).1, s.nextIds.absences ≤ r.id := by
  induction inputs generalizing s with
  | nil => intro r hr; simp [MemStorage.batchCreateAbsences] at hr
  | cons a rest ih =>
    intro r hr
    simp only [MemStorage.batchCreateAbsences, List.mem_cons] at hr
    rcases hr with hr | hr
    · rw [hr]; exact Nat.le_refl _
    · exact Nat.le_trans (Nat.le_succ _) (ih (s.createAbsence a).2 r hr)

theorem batchCreate_ids_pairwise (inputs : List InsertAbsence) (s : MemStorage) :
    List.Pairwise (· < ·) ((s.batchCreateAbsences inputs).1.map Absence.id) := by
  induction inputs generalizing s with
  | nil => simp [MemStorage.batchCreateAbsences]
  | cons a rest ih =>
    simp only [MemStorage.batchCreateAbsences, List.map_cons, List.pairwise_cons]
    refine ⟨fun j hj => ?_, ih (s.createAbsence a).2⟩
    rcases List.mem_map.mp hj with ⟨r, hr, hrid⟩
    have h := batchCreate_ids_lb rest (s.createAbsence a).2 r hr
    rw [← hrid]
    exact Nat.lt_of_lt_of_le (Nat.lt_succ_self _) h

theorem batchCreate_fields (inputs : List InsertAbsence) (s : MemStorage) :
    (s.batchCreateAbsences inputs).1.map absenceFields = inputs.map insertAbsenceFields := by
  induction inputs generalizing s with
  | nil => rfl
  | cons a rest ih =>
    simp only [MemStorage.batchCreateAbsences, List.map_cons]
    exact congrArg _ (ih (s.createAbsence a).2)

theorem batchCreate_get_low (inputs : List InsertAbsence) (s : MemStorage) (k : Nat)
    (hk : k < s.nextIds.absences) :
    mapGet ((s.batchCreateAbsences inputs).2).absences k = mapGet s.absences k := by
  induction inputs generalizing s with
  | nil => rfl
  | cons a rest ih =>
    simp only [MemStorage.batchCreateAbsences]
    rw [ih (s.createAbsence a).2 (Nat.lt_trans hk (Nat.lt_succ_self _))]
    exact mapGet_set_ne s.absences k s.nextIds.absences _ (Nat.ne_of_lt hk)

theorem batchCreate_stored (inputs : List InsertAbsence) (s : MemStorage) :
    ∀ r ∈ (s.batchCreateAbsences inputs).1,
      mapGet ((s.batchCreateAbsences inputs).2).absences r.id = some r := by
  induction inputs generalizing s with
  | nil => intro r hr; simp [MemStorage.batchCreateAbsences] at hr
  | cons a rest ih =>
    intro r hr
    simp only [MemStorage.batchCreateAbsences, List.mem_cons] at hr ⊢
    rcases hr with hr | hr
    · rw [hr]
      rw [batchCreate_get_low rest (s.createAbsence a).2 (s.createAbsence a).1.id
        (Nat.lt_succ_self _)]
      exact mapGet_set_self s.absences s.nextIds.absences _
    · exact ih (s.createAbsence a).2 r hr

/-- Claim C7: `batchCreateAbsences` returns one created record per input, in
input order: the stored field values match the inputs positionally, the
assigned identifiers are strictly increasing (hence pairwise distinct) and
distinct from every identifier already present in the absence collection, and
every returned record is retrievable from the resulting store under its id. -/
theorem batchCreateAbsences_correct (s : MemStorage) (inputs : List InsertAbsence)
    (hb : ∀ k ∈ s.absences.map Prod.fst, k < s.nextIds.absences) :
    (s.batchCreateAbsences inputs).1.length = inputs.length ∧
    (s.batchCreateAbsences inputs).1.map absenceFields = inputs.map insertAbsenceFields ∧
    List.Pairwise (· < ·) ((s.batchCreateAbsences inputs).1.map Absence.id) ∧
    (∀ r ∈ (s.batchCreateAbsences inputs).1, ∀ k ∈ s.absences.map Prod.fst, k ≠ r.id) ∧
    (∀ r ∈ (s.batchCreateAbsences inputs).1,
      ((s.batchCreateAbsences inputs).2).getAbsence r.id = some r) := by
  refine ⟨?_, batchCreate_fields inputs s, batchCreate_ids_pairwise inputs s, ?_,
    batchCreate_stored inputs s⟩
  · have h := congrArg List.length (batchCreate_fields inputs s)
    simpa using h
  · intro r hr k hk
    have h1 := hb k hk
    have h2 := batchCreate_ids_lb inputs s r hr
    omega

/-- Witness for C7: batch-inserting three absences into a store that already
holds one. -/
theorem batchCreateAbsences_correct_witness :
    (c7Store.batchCreateAbsences c7Inputs).1.length = c7Inputs.length ∧
    (c7Store.batchCreateAbsences c7Inputs).1.map absenceFields =
      c7Inputs.map insertAbsenceFields ∧
    List.Pairwise (· < ·) ((c7Store.batchCreateAbsences c7Inputs).1.map Absence.id) ∧
    (∀ r ∈ (c7Store.batchCreateAbsences c7Inputs).1,
      ∀ k ∈ c7Store.absences.map Prod.fst, k ≠ r.id) ∧
    (∀ r ∈ (c7Store.batchCreateAbsences c7Inputs).1,
      ((c7Store.batchCreateAbsences c7Inputs).2).getAbsence r.id = some r) :=
  batchCreateAbsences_correct c7Store c7Inputs (by decide)

end SuiviScolaire
